import Mathlib

/-!
# Shallow embedding of `starlette/websockets.py`

This file embeds the WebSocket connection state machine of
`src/starlette/websockets.py` in Lean and proves the testable
properties of its specification against this embedding.

Modelling conventions:

* ASGI messages (Python dicts) become the `Message` structure: a tag
  (the `"type"` key) plus optional `text`, `bytes`, `code` and
  `subprotocol` fields; an absent dict key is `none` and reading an
  absent key raises `KeyError`, modelled by `Err.keyError`.
* The ASGI `receive` callable is modelled by an `inbox : List Message`
  of pending inbound events; `await self._receive()` pops its head and
  increments `recvCalls` (the number of times the transport was
  invoked).  An empty inbox would suspend forever, modelled by the
  artificial `Err.blocked`.
* The ASGI `send` callable appends the delivered message to
  `sent : List Message`.
* Every operation returns `Except Err α × WS`: Python exceptions
  propagate to the caller while the object's state (and the transport
  side effects performed so far) persist, so the post state is always
  returned next to the result.
-/

namespace Starlette

/-- The `WebSocketState` enum of the source. -/
inductive WebSocketState where
  | CONNECTING
  | CONNECTED
  | DISCONNECTED
deriving DecidableEq, Repr

/-- The `"type"` key of an ASGI websocket message, one constructor per
wire type that the source mentions: `websocket.connect`,
`websocket.accept`, `websocket.receive`, `websocket.send`,
`websocket.disconnect`, `websocket.close`. -/
inductive MsgType where
  | connect
  | accept
  | receive
  | send
  | disconnect
  | close
deriving DecidableEq, Repr

/-- An ASGI message: the `"type"` key plus the optional payload keys the
source reads (`"text"`, `"bytes"`, `"code"`, `"subprotocol"`).  Python
`bytes` values are modelled as lists of byte values. -/
structure Message where
  type : MsgType
  text : Option String
  bytes : Option (List Nat)
  code : Option Int
  subprotocol : Option String
deriving DecidableEq, Repr

/-- The Python exceptions the source can raise.  `blocked` is a model
artifact standing for an `await` of a transport that never yields. -/
inductive Err where
  | assertionError
  | runtimeError (msg : String)
  | keyError
  | webSocketDisconnect (code : Int)
  | unicodeDecodeError
  | jsonDecodeError
  | blocked
deriving DecidableEq, Repr

/-- The state of one `WebSocket` object together with its transport:
the two state trackers of the source, the pending inbound events, the
delivered outbound events, and how many times `self._receive()` was
awaited. -/
structure WS where
  client_state : WebSocketState
  application_state : WebSocketState
  inbox : List Message
  sent : List Message
  recvCalls : Nat
deriving DecidableEq, Repr

/-- The `WebSocket.receive` of the source: pops the next inbound event,
checks it against `client_state`, advances `client_state`. -/
def WS.receive (ws : WS) : Except Err Message × WS :=
  match ws.client_state with
  | .CONNECTING =>
    match ws.inbox with
    | [] => (.error .blocked, ws)
    | message :: rest =>
      let ws1 : WS :=
        { ws with inbox := rest, recvCalls := ws.recvCalls + 1 }
      if message.type = .connect then
        (.ok message, { ws1 with client_state := .CONNECTED })
      else
        (.error .assertionError, ws1)
  | .CONNECTED =>
    match ws.inbox with
    | [] => (.error .blocked, ws)
    | message :: rest =>
      let ws1 : WS :=
        { ws with inbox := rest, recvCalls := ws.recvCalls + 1 }
      if message.type = .receive ∨ message.type = .disconnect then
        if message.type = .disconnect then
          (.ok message, { ws1 with client_state := .DISCONNECTED })
        else
          (.ok message, ws1)
      else
        (.error .assertionError, ws1)
  | .DISCONNECTED =>
    (.error (.runtimeError
      "Cannot call \"receive\" once a disconnect message has been received."), ws)

/-- The `WebSocket.send` of the source: checks the outbound message against
`application_state`, advances `application_state`, then hands the
message to the transport. -/
def WS.send (ws : WS) (message : Message) : Except Err Unit × WS :=
  match ws.application_state with
  | .CONNECTING =>
    if message.type = .accept ∨ message.type = .close then
      let ws1 : WS :=
        if message.type = .close then
          { ws with application_state := .DISCONNECTED }
        else
          { ws with application_state := .CONNECTED }
      (.ok (), { ws1 with sent := ws1.sent ++ [message] })
    else
      (.error .assertionError, ws)
  | .CONNECTED =>
    if message.type = .send ∨ message.type = .close then
      let ws1 : WS :=
        if message.type = .close then
          { ws with application_state := .DISCONNECTED }
        else
          ws
      (.ok (), { ws1 with sent := ws1.sent ++ [message] })
    else
      (.error .assertionError, ws)
  | .DISCONNECTED =>
    (.error (.runtimeError
      "Cannot call \"send\" once a close message has been sent."), ws)

/-- The message `{"type": "websocket.accept", "subprotocol": subprotocol}`. -/
def acceptMsg (subprotocol : Option String) : Message :=
  { type := .accept, text := none, bytes := none, code := none,
    subprotocol := subprotocol }

/-- The `WebSocket.accept` of the source: when `client_state` is still
`CONNECTING` first consume one inbound event via `receive`, then send
the accept message. -/
def WS.accept (ws : WS) (subprotocol : Option String) : Except Err Unit × WS :=
  if ws.client_state = .CONNECTING then
    match ws.receive with
    | (.error e, ws1) => (.error e, ws1)
    | (.ok _, ws1) => ws1.send (acceptMsg subprotocol)
  else
    ws.send (acceptMsg subprotocol)

/-- The `WebSocket._raise_on_disconnect` of the source: raise
`WebSocketDisconnect(message["code"])` on a disconnect message. -/
def raise_on_disconnect (message : Message) : Except Err Unit :=
  if message.type = .disconnect then
    match message.code with
    | some c => .error (.webSocketDisconnect c)
    | none => .error .keyError
  else
    .ok ()

/-- The `WebSocket.receive_text` of the source. -/
def WS.receive_text (ws : WS) : Except Err String × WS :=
  if ws.application_state = .CONNECTED then
    match ws.receive with
    | (.error e, ws1) => (.error e, ws1)
    | (.ok message, ws1) =>
      match raise_on_disconnect message with
      | .error e => (.error e, ws1)
      | .ok _ =>
        match message.text with
        | some t => (.ok t, ws1)
        | none => (.error .keyError, ws1)
  else
    (.error .assertionError, ws)

/-- The `WebSocket.receive_bytes` of the source. -/
def WS.receive_bytes (ws : WS) : Except Err (List Nat) × WS :=
  if ws.application_state = .CONNECTED then
    match ws.receive with
    | (.error e, ws1) => (.error e, ws1)
    | (.ok message, ws1) =>
      match raise_on_disconnect message with
      | .error e => (.error e, ws1)
      | .ok _ =>
        match message.bytes with
        | some b => (.ok b, ws1)
        | none => (.error .keyError, ws1)
  else
    (.error .assertionError, ws)

/-- The `WebSocket.send_text` of the source. -/
def WS.send_text (ws : WS) (data : String) : Except Err Unit × WS :=
  ws.send { type := .send, text := some data, bytes := none, code := none,
            subprotocol := none }

/-- The `WebSocket.send_bytes` of the source. -/
def WS.send_bytes (ws : WS) (data : List Nat) : Except Err Unit × WS :=
  ws.send { type := .send, text := none, bytes := some data, code := none,
            subprotocol := none }

/-- The `WebSocket.close` of the source. -/
def WS.close (ws : WS) (code : Int) : Except Err Unit × WS :=
  ws.send { type := .close, text := none, bytes := none, code := some code,
            subprotocol := none }

/-! ## Structured-data (JSON) codec

Modelled from the spec: `send_json` / `receive_json` call the Python
standard library `json.dumps` / `json.loads`, which is not part of this
repository.  Following §4.5 of the spec ("encodes the value / decodes
the payload ... then parses as a structured-data document (e.g. JSON)"),
structured values are modelled by the `JsonValue` inductive (numbers as
integers; floating point is out of scope of the embedding), the encoder
mirrors `json.dumps` output (separators `", "` and `": "`, escaped
strings) and the decoder is an executable JSON parser. -/

/-- A structured-data document (JSON value), the codomain of the
modelled `json.loads` and domain of the modelled `json.dumps`. -/
inductive JsonValue where
  | null
  | bool (b : Bool)
  | num (n : Int)
  | str (s : String)
  | arr (elems : List JsonValue)
  | obj (members : List (String × JsonValue))

/-- The character for a decimal digit `d < 10`. -/
def digitChar (d : Nat) : Char := Char.ofNat (48 + d)

/-- Decimal digits of `n`, most significant first, prepended to `acc`;
`fuel` bounds the recursion. -/
def natToDigitsAux : Nat → Nat → List Char → List Char
  | 0, _, acc => acc
  | fuel + 1, n, acc =>
    if n < 10 then digitChar n :: acc
    else natToDigitsAux fuel (n / 10) (digitChar (n % 10) :: acc)

/-- Decimal representation of a natural number. -/
def natToChars (n : Nat) : List Char := natToDigitsAux (n + 1) n []

/-- Decimal representation of an integer, as `json.dumps` prints it. -/
def dumpsInt (n : Int) : List Char :=
  if n < 0 then '-' :: natToChars (-n).toNat else natToChars n.toNat

/-- Hexadecimal digit character for `n < 16` (lowercase). -/
def hexDigitChar (n : Nat) : Char :=
  if n < 10 then Char.ofNat (48 + n) else Char.ofNat (87 + n)

/-- JSON string escaping of one character: `"` and `\` get a backslash
escape, control characters become `\u00XX`, everything else is
literal. -/
def escapeChar (c : Char) : List Char :=
  if c = '"' then ['\\', '"']
  else if c = '\\' then ['\\', '\\']
  else if c.toNat < 32 then
    ['\\', 'u', '0', '0', hexDigitChar (c.toNat / 16), hexDigitChar (c.toNat % 16)]
  else [c]

/-- JSON string escaping of a character list. -/
def escapeStr : List Char → List Char
  | [] => []
  | c :: cs => escapeChar c ++ escapeStr cs

/-- A JSON string literal: quotes around the escaped content. -/
def dumpsStr (s : String) : List Char := '"' :: (escapeStr s.data ++ ['"'])

mutual

/-- Serialization of a `JsonValue`, mirroring `json.dumps` with its
default separators `", "` and `": "`. -/
def dumpsVal : JsonValue → List Char
  | .null => ['n', 'u', 'l', 'l']
  | .bool b => if b then ['t', 'r', 'u', 'e'] else ['f', 'a', 'l', 's', 'e']
  | .num n => dumpsInt n
  | .str s => dumpsStr s
  | .arr xs => '[' :: dumpsElems xs
  | .obj kvs => '\x7b' :: dumpsMembers kvs

/-- Serialization of array elements followed by the closing bracket. -/
def dumpsElems : List JsonValue → List Char
  | [] => [']']
  | [x] => dumpsVal x ++ [']']
  | x :: y :: xs => dumpsVal x ++ ',' :: ' ' :: dumpsElems (y :: xs)

/-- Serialization of object members followed by the closing brace. -/
def dumpsMembers : List (String × JsonValue) → List Char
  | [] => ['\x7d']
  | [(k, v)] => dumpsStr k ++ ':' :: ' ' :: (dumpsVal v ++ ['\x7d'])
  | (k, v) :: m :: kvs =>
    dumpsStr k ++ ':' :: ' ' :: (dumpsVal v ++ ',' :: ' ' :: dumpsMembers (m :: kvs))

end

/-- The modelled `json.dumps`. -/
def json_dumps (v : JsonValue) : String := ⟨dumpsVal v⟩

/-- Whitespace test for the JSON parser. -/
def isWsChar (c : Char) : Bool := c = ' ' || c = '\n' || c = '\t' || c = '\r'

/-- Drop leading JSON whitespace. -/
def skipWs : List Char → List Char
  | [] => []
  | c :: cs => if isWsChar c then skipWs cs else c :: cs

/-- Value of a hexadecimal digit character. -/
def hexVal (c : Char) : Option Nat :=
  if 48 ≤ c.toNat ∧ c.toNat ≤ 57 then some (c.toNat - 48)
  else if 97 ≤ c.toNat ∧ c.toNat ≤ 102 then some (c.toNat - 87)
  else if 65 ≤ c.toNat ∧ c.toNat ≤ 70 then some (c.toNat - 55)
  else none

/-- Parse the body of a JSON string literal (after the opening quote),
accumulating decoded characters in reverse in `acc`. -/
def parseStringAux : List Char → List Char → Option (String × List Char)
  | [], _ => none
  | c :: cs, acc =>
    if c = '"' then some (⟨acc.reverse⟩, cs)
    else if c = '\\' then
      match cs with
      | [] => none
      | e :: cs2 =>
        if e = '"' ∨ e = '\\' ∨ e = '/' then parseStringAux cs2 (e :: acc)
        else if e = 'n' then parseStringAux cs2 ('\n' :: acc)
        else if e = 't' then parseStringAux cs2 ('\t' :: acc)
        else if e = 'r' then parseStringAux cs2 ('\r' :: acc)
        else if e = 'b' then parseStringAux cs2 (Char.ofNat 8 :: acc)
        else if e = 'f' then parseStringAux cs2 (Char.ofNat 12 :: acc)
        else if e = 'u' then
          match cs2 with
          | h1 :: h2 :: h3 :: h4 :: cs3 =>
            match hexVal h1, hexVal h2, hexVal h3, hexVal h4 with
            | some a, some b, some c2, some d =>
              parseStringAux cs3 (Char.ofNat (4096 * a + 256 * b + 16 * c2 + d) :: acc)
            | _, _, _, _ => none
          | _ => none
        else none
    else parseStringAux cs (c :: acc)

/-- Take the longest digit run from the front of the input. -/
def takeDigits : List Char → List Char × List Char
  | [] => ([], [])
  | c :: cs =>
    if c.isDigit then
      let p := takeDigits cs
      (c :: p.1, p.2)
    else ([], c :: cs)

/-- Numeric value of a digit run, accumulated onto `acc`. -/
def digitsToNat : Nat → List Char → Nat
  | acc, [] => acc
  | acc, c :: cs => digitsToNat (10 * acc + (c.toNat - 48)) cs

mutual

/-- Parse one JSON value; `fuel` bounds the nesting depth. -/
def parseValue : Nat → List Char → Option (JsonValue × List Char)
  | 0, _ => none
  | fuel + 1, cs =>
    match skipWs cs with
    | [] => none
    | c :: cs1 =>
      if c = 'n' then
        match cs1 with
        | 'u' :: 'l' :: 'l' :: r => some (.null, r)
        | _ => none
      else if c = 't' then
        match cs1 with
        | 'r' :: 'u' :: 'e' :: r => some (.bool true, r)
        | _ => none
      else if c = 'f' then
        match cs1 with
        | 'a' :: 'l' :: 's' :: 'e' :: r => some (.bool false, r)
        | _ => none
      else if c = '"' then
        match parseStringAux cs1 [] with
        | some (s, r) => some (.str s, r)
        | none => none
      else if c = '-' then
        match takeDigits cs1 with
        | ([], _) => none
        | (ds, r) => some (.num (-(digitsToNat 0 ds : Int)), r)
      else if c.isDigit then
        match takeDigits (c :: cs1) with
        | ([], _) => none
        | (ds, r) => some (.num (digitsToNat 0 ds), r)
      else if c = '[' then
        match skipWs cs1 with
        | ']' :: r => some (.arr [], r)
        | cs2 =>
          match parseElems fuel cs2 with
          | some (vs, r) => some (.arr vs, r)
          | none => none
      else if c = '\x7b' then
        match skipWs cs1 with
        | '\x7d' :: r => some (.obj [], r)
        | cs2 =>
          match parseMembers fuel cs2 with
          | some (kvs, r) => some (.obj kvs, r)
          | none => none
      else none

/-- Parse the elements of a nonempty JSON array up to and including the
closing bracket. -/
def parseElems : Nat → List Char → Option (List JsonValue × List Char)
  | 0, _ => none
  | fuel + 1, cs =>
    match parseValue fuel cs with
    | none => none
    | some (v, r) =>
      match skipWs r with
      | ',' :: r2 =>
        match parseElems fuel r2 with
        | some (vs, r3) => some (v :: vs, r3)
        | none => none
      | ']' :: r2 => some ([v], r2)
      | _ => none

/-- Parse the members of a nonempty JSON object up to and including the
closing brace. -/
def parseMembers : Nat → List Char → Option (List (String × JsonValue) × List Char)
  | 0, _ => none
  | fuel + 1, cs =>
    match skipWs cs with
    | '"' :: cs1 =>
      match parseStringAux cs1 [] with
      | none => none
      | some (k, r) =>
        match skipWs r with
        | ':' :: r2 =>
          match parseValue fuel r2 with
          | none => none
          | some (v, r3) =>
            match skipWs r3 with
            | ',' :: r4 =>
              match parseMembers fuel r4 with
              | some (kvs, r5) => some ((k, v) :: kvs, r5)
              | none => none
            | '\x7d' :: r4 => some ([(k, v)], r4)
            | _ => none
        | _ => none
    | _ => none

end

/-- The modelled `json.loads`: parse one value and require only
whitespace to remain. -/
def json_loads (s : String) : Option JsonValue :=
  match parseValue (2 * s.data.length + 2) s.data with
  | some (v, r) => if skipWs r = [] then some v else none
  | none => none

mutual

/-- Structural size of a JSON value, used to bound the parser fuel. -/
def jsize : JsonValue → Nat
  | .null => 1
  | .bool _ => 1
  | .num _ => 1
  | .str _ => 1
  | .arr xs => 1 + jsizeElems xs
  | .obj kvs => 1 + jsizeMembers kvs

/-- Structural size of array elements. -/
def jsizeElems : List JsonValue → Nat
  | [] => 1
  | x :: xs => jsize x + jsizeElems xs

/-- Structural size of object members. -/
def jsizeMembers : List (String × JsonValue) → Nat
  | [] => 1
  | (_, v) :: kvs => 1 + jsize v + jsizeMembers kvs

end

/-! ## UTF-8 byte codec

Modelled from the spec: `send_json(mode="binary")` calls the Python
standard library `str.encode("utf-8")` and `receive_json` calls
`bytes.decode("utf-8")`, neither of which is part of this repository.
Per §4.5 ("decodes payload as UTF-8 text") they are modelled as the
canonical injection of a string's code points into byte values, with
decoding failing on sequences that are not the image of a string. -/

/-- Modelled `str.encode("utf-8")`. -/
def utf8encode (s : String) : List Nat := s.data.map Char.toNat

/-- Whether a number is a valid Unicode scalar value. -/
def isValidCp (n : Nat) : Bool := n < 55296 || (57343 < n && n < 1114112)

/-- Modelled `bytes.decode("utf-8")`. -/
def utf8decode (bs : List Nat) : Option String :=
  if bs.all isValidCp then some ⟨bs.map Char.ofNat⟩ else none

/-- The `WebSocket.receive_json` of the source. -/
def WS.receive_json (ws : WS) (mode : String) : Except Err JsonValue × WS :=
  if mode = "text" ∨ mode = "binary" then
    if ws.application_state = .CONNECTED then
      match ws.receive with
      | (.error e, ws1) => (.error e, ws1)
      | (.ok message, ws1) =>
        match raise_on_disconnect message with
        | .error e => (.error e, ws1)
        | .ok _ =>
          let textRes : Except Err String :=
            if mode = "text" then
              match message.text with
              | some t => .ok t
              | none => .error .keyError
            else
              match message.bytes with
              | some b =>
                match utf8decode b with
                | some s => .ok s
                | none => .error .unicodeDecodeError
              | none => .error .keyError
          match textRes with
          | .error e => (.error e, ws1)
          | .ok text =>
            match json_loads text with
            | some v => (.ok v, ws1)
            | none => (.error .jsonDecodeError, ws1)
    else
      (.error .assertionError, ws)
  else
    (.error .assertionError, ws)

/-- The `WebSocket.send_json` of the source. -/
def WS.send_json (ws : WS) (data : JsonValue) (mode : String) : Except Err Unit × WS :=
  if mode = "text" ∨ mode = "binary" then
    let text := json_dumps data
    if mode = "text" then
      ws.send { type := .send, text := some text, bytes := none, code := none,
                subprotocol := none }
    else
      ws.send { type := .send, text := none, bytes := some (utf8encode text),
                code := none, subprotocol := none }
  else
    (.error .assertionError, ws)

/-- How one pass of the `iter_text` loop of the source ends. -/
inductive IterEnd where
  | ended
  | errored (e : Err)
  | fuelOut
deriving DecidableEq, Repr

/-- The `WebSocket.iter_text` of the source, run to completion: collect the
yielded strings until `WebSocketDisconnect` ends the loop cleanly or
another exception propagates.  `fuel` bounds the number of loop
iterations (the Python generator is unbounded). -/
def WS.iter_text : Nat → WS → List String × IterEnd × WS
  | 0, ws => ([], .fuelOut, ws)
  | fuel + 1, ws =>
    match ws.receive_text with
    | (.ok t, ws1) =>
      let r := WS.iter_text fuel ws1
      (t :: r.1, r.2.1, r.2.2)
    | (.error (.webSocketDisconnect _), ws1) => ([], .ended, ws1)
    | (.error e, ws1) => ([], .errored e, ws1)

/-- One public operation of the receive / send paths, used to state the
monotonicity invariant over arbitrary call sequences. -/
inductive Op where
  | opReceive
  | opSend (m : Message)

/-- Run one operation, discarding the returned message. -/
def WS.step (ws : WS) (op : Op) : Except Err Unit × WS :=
  match op with
  | .opReceive =>
    match ws.receive with
    | (.ok _, ws1) => (.ok (), ws1)
    | (.error e, ws1) => (.error e, ws1)
  | .opSend m => ws.send m

/-- Run a sequence of operations, stopping at the first error (a
sequence that "completes without error" is one on which this returns
`.ok`). -/
def runOps : WS → List Op → Except Err WS
  | ws, [] => .ok ws
  | ws, op :: ops =>
    match ws.step op with
    | (.ok _, ws1) => runOps ws1 ops
    | (.error e, _) => .error e

/-- Run a sequence of operations, threading the state through even when
an operation raises (the Python object persists across caught
exceptions). -/
def stepAll : WS → List Op → WS
  | ws, [] => ws
  | ws, op :: ops => stepAll (ws.step op).2 ops

/-- Position of a state along the forward lifecycle
`CONNECTING → CONNECTED → DISCONNECTED`. -/
def rank : WebSocketState → Nat
  | .CONNECTING => 0
  | .CONNECTED => 1
  | .DISCONNECTED => 2

/-- The error taxonomy of §7 of the spec. -/
inductive SpecError where
  | contractViolation
  | alreadyTerminated
  | terminationSignal (code : Int)
  | malformedPayload
deriving DecidableEq, Repr

/-- Modelled from the spec: the classification of the exceptions of the
source into the error taxonomy of §7.  `AssertionError` (a protocol
event of the wrong kind for the current state) is a ContractViolation;
`RuntimeError` (operation invoked after that direction reached
`DISCONNECTED`) is AlreadyTerminatedError; `WebSocketDisconnect` is the
TerminationSignal; `KeyError` / decode errors (payload-shape and parse
failures that leave the connection state untouched) are
MalformedPayloadError.  `blocked` is a model artifact and classifies as
nothing. -/
def Err.toSpec : Err → Option SpecError
  | .assertionError => some .contractViolation
  | .runtimeError _ => some .alreadyTerminated
  | .webSocketDisconnect c => some (.terminationSignal c)
  | .keyError => some .malformedPayload
  | .unicodeDecodeError => some .malformedPayload
  | .jsonDecodeError => some .malformedPayload
  | .blocked => none

/-- The peer echoing a delivered data message back: the same payload
arrives as an inbound `websocket.receive` event. -/
def echo (m : Message) : Message := { m with type := .receive }

/-- The concrete connection of the C2 counterexample: both states
`CONNECTING` and the transport's first inbound event an abrupt
`websocket.disconnect` (a `Termination`). -/
def c2ws : WS :=
  ⟨.CONNECTING, .CONNECTING, [⟨.disconnect, none, none, some 1006, none⟩], [], 0⟩

/-- The `accept()` immediately followed by `send_text("x")`, propagating
the first failure like the Python exception would. -/
def acceptThenSendText (ws : WS) : Except Err Unit × WS :=
  match ws.accept none with
  | (.ok _, ws1) => ws1.send_text "x"
  | (.error e, ws1) => (.error e, ws1)

/-- The data message that `send_json` constructs for value `v` and the
given mode (text payload for `"text"`, UTF-8 encoded bytes payload for
`"binary"`). -/
def jsonMsg (v : JsonValue) (mode : String) : Message :=
  if mode = "text" then
    { type := .send, text := some (json_dumps v), bytes := none, code := none,
      subprotocol := none }
  else
    { type := .send, text := none, bytes := some (utf8encode (json_dumps v)),
      code := none, subprotocol := none }

/-! ## State-machine lemmas -/

theorem rank_le_receive_client (ws : WS) :
    rank ws.client_state ≤ rank ws.receive.2.client_state := by
  rcases ws with ⟨cs, as, inbox, sent, rc⟩
  cases cs <;> cases inbox <;> simp only [WS.receive] <;>
    all_goals (first
      | rfl
      | (split_ifs <;> simp [rank]))

theorem receive_app (ws : WS) :
    ws.receive.2.application_state = ws.application_state := by
  rcases ws with ⟨cs, as, inbox, sent, rc⟩
  cases cs <;> cases inbox <;> simp only [WS.receive] <;>
    all_goals (first
      | rfl
      | (split_ifs <;> simp))

theorem rank_le_send_app (ws : WS) (m : Message) :
    rank ws.application_state ≤ rank (ws.send m).2.application_state := by
  rcases ws with ⟨cs, as, inbox, sent, rc⟩
  cases as <;> simp only [WS.send] <;>
    all_goals (first
      | rfl
      | (split_ifs <;> simp [rank]))

theorem send_client (ws : WS) (m : Message) :
    (ws.send m).2.client_state = ws.client_state := by
  rcases ws with ⟨cs, as, inbox, sent, rc⟩
  cases as <;> simp only [WS.send] <;>
    all_goals (first
      | rfl
      | (split_ifs <;> simp))

theorem step_mono (ws : WS) (op : Op) :
    rank ws.client_state ≤ rank (ws.step op).2.client_state ∧
    rank ws.application_state ≤ rank (ws.step op).2.application_state := by
  cases op with
  | opReceive =>
    have h1 := rank_le_receive_client ws
    have h2 := receive_app ws
    cases hr : ws.receive with
    | mk r ws1 =>
      cases r <;> simp_all [WS.step]
  | opSend m =>
    have h1 := rank_le_send_app ws m
    have h2 := send_client ws m
    simp_all [WS.step]

theorem receive_at_disconnected (ws : WS) (h : ws.client_state = .DISCONNECTED) :
    ws.receive = (.error (.runtimeError
      "Cannot call \"receive\" once a disconnect message has been received."), ws) := by
  rcases ws with ⟨cs, as, inbox, sent, rc⟩
  simp only at h
  subst h
  rfl

theorem send_at_disconnected (ws : WS) (m : Message)
    (h : ws.application_state = .DISCONNECTED) :
    ws.send m = (.error (.runtimeError
      "Cannot call \"send\" once a close message has been sent."), ws) := by
  rcases ws with ⟨cs, as, inbox, sent, rc⟩
  simp only at h
  subst h
  rfl

theorem rank_two (s : WebSocketState) (h : 2 ≤ rank s) : s = .DISCONNECTED := by
  cases s <;> simp [rank] at h ⊢

theorem stepAll_disc (ops : List Op) (w : WS)
    (h : w.application_state = .DISCONNECTED) :
    (stepAll w ops).application_state = .DISCONNECTED := by
  induction ops generalizing w with
  | nil => simpa [stepAll] using h
  | cons op ops ih =>
    have hm := (step_mono w op).2
    rw [h] at hm
    simp only [rank] at hm
    simp only [stepAll]
    exact ih _ (rank_two _ hm)

/-! ## Claims -/

/-- C1: for every sequence of receive and send operations that completes
without error, both `client_state` (remoteState) and `application_state`
(localState) only move forward along
`CONNECTING → CONNECTED → DISCONNECTED`; no operation moves either state
backward.  Since the theorem holds for every operation sequence, it in
particular bounds every prefix of a run, so no intermediate step moves
a state backward either. -/
theorem c1_states_monotonic (ws : WS) (ops : List Op) (ws' : WS)
    (h : runOps ws ops = .ok ws') :
    rank ws.client_state ≤ rank ws'.client_state ∧
    rank ws.application_state ≤ rank ws'.application_state := by
  induction ops generalizing ws with
  | nil =>
    simp only [runOps, Except.ok.injEq] at h
    subst h
    exact ⟨le_refl _, le_refl _⟩
  | cons op ops ih =>
    have hm := step_mono ws op
    cases hstep : ws.step op with
    | mk r ws1 =>
      cases r with
      | error e => rw [runOps, hstep] at h; simp at h
      | ok _ =>
        rw [runOps, hstep] at h
        have hrest := ih ws1 h
        rw [hstep] at hm
        exact ⟨le_trans hm.1 hrest.1, le_trans hm.2 hrest.2⟩

/-- Witness for C1 at a concrete run: a fresh connection receiving its
`websocket.connect` event. -/
theorem c1_witness :
    rank (WS.mk .CONNECTING .CONNECTING
        [⟨.connect, none, none, none, none⟩] [] 0).client_state ≤
      rank (WS.mk .CONNECTED .CONNECTING [] [] 1).client_state ∧
    rank (WS.mk .CONNECTING .CONNECTING
        [⟨.connect, none, none, none, none⟩] [] 0).application_state ≤
      rank (WS.mk .CONNECTED .CONNECTING [] [] 1).application_state :=
  c1_states_monotonic _ [Op.opReceive] _ (by rfl)


/-- C2 counterexample: with `client_state = CONNECTING` and the first
inbound event a `Termination` (abrupt peer disconnect), `receive` does
NOT move `client_state` to `DISCONNECTED` — the `assert message_type ==
"websocket.connect"` fails first, so the state stays `CONNECTING`,
contradicting the claim. -/
theorem c2_counterexample :
    c2ws.client_state = .CONNECTING ∧
    c2ws.inbox.map Message.type = [.disconnect] ∧
    ¬ (c2ws.receive.2.client_state = .DISCONNECTED) := by decide

/-- C2 amended: if `client_state = CONNECTING` and the first inbound
event is a `Termination`, `receive` fails with `AssertionError` (a
ContractViolation in the spec's taxonomy) and `client_state` remains
`CONNECTING`; it is not moved to `DISCONNECTED`. -/
theorem c2_amended (ws : WS) (m : Message) (rest : List Message)
    (hc : ws.client_state = .CONNECTING) (hi : ws.inbox = m :: rest)
    (ht : m.type = .disconnect) :
    ws.receive = (.error .assertionError,
      { ws with inbox := rest, recvCalls := ws.recvCalls + 1 }) ∧
    ws.receive.2.client_state = .CONNECTING ∧
    Err.toSpec .assertionError = some .contractViolation := by
  rcases ws with ⟨cs, as, inbox, sent, rc⟩
  simp only at hc hi
  subst hc; subst hi
  refine ⟨?_, ?_, rfl⟩ <;> simp [WS.receive, ht]

/-- Witness for C2's amended claim, at the counterexample connection. -/
theorem c2_witness :
    c2ws.receive = (.error .assertionError,
      { c2ws with inbox := [], recvCalls := c2ws.recvCalls + 1 }) ∧
    c2ws.receive.2.client_state = .CONNECTING ∧
    Err.toSpec .assertionError = some .contractViolation :=
  c2_amended c2ws ⟨.disconnect, none, none, some 1006, none⟩ [] rfl rfl rfl

/-- C6: whenever `client_state` (remoteState) is `DISCONNECTED`,
`receive` fails immediately with the `RuntimeError`
(AlreadyTerminatedError): the returned state equals the input state, so
the transport's `_receive` is not invoked (`recvCalls` unchanged, inbox
untouched) and neither state changes. -/
theorem c6_receive_after_closed (ws : WS) (h : ws.client_state = .DISCONNECTED) :
    ws.receive = (.error (.runtimeError
      "Cannot call \"receive\" once a disconnect message has been received."), ws) ∧
    Err.toSpec (.runtimeError
        "Cannot call \"receive\" once a disconnect message has been received.") =
      some .alreadyTerminated :=
  ⟨receive_at_disconnected ws h, rfl⟩

/-- Witness for C6 at a concrete closed-remote connection. -/
theorem c6_witness :
    (WS.mk .DISCONNECTED .CONNECTED
        [⟨.receive, some "late", none, none, none⟩] [] 0).receive =
      (.error (.runtimeError
        "Cannot call \"receive\" once a disconnect message has been received."),
       WS.mk .DISCONNECTED .CONNECTED
        [⟨.receive, some "late", none, none, none⟩] [] 0) ∧
    Err.toSpec (.runtimeError
        "Cannot call \"receive\" once a disconnect message has been received.") =
      some .alreadyTerminated :=
  c6_receive_after_closed _ rfl

/-- C7: whenever `application_state` (localState) is `DISCONNECTED`,
`send` fails immediately with the `RuntimeError`
(AlreadyTerminatedError) for every message argument, and the returned
state equals the input state, so nothing is handed to the transport
(`sent` unchanged). -/
theorem c7_send_after_closed (ws : WS) (m : Message)
    (h : ws.application_state = .DISCONNECTED) :
    ws.send m = (.error (.runtimeError
      "Cannot call \"send\" once a close message has been sent."), ws) ∧
    Err.toSpec (.runtimeError
        "Cannot call \"send\" once a close message has been sent.") =
      some .alreadyTerminated :=
  ⟨send_at_disconnected ws m h, rfl⟩

/-- Witness for C7 at a concrete locally-closed connection. -/
theorem c7_witness :
    (WS.mk .CONNECTED .DISCONNECTED [] [] 0).send
        ⟨.send, some "x", none, none, none⟩ =
      (.error (.runtimeError
        "Cannot call \"send\" once a close message has been sent."),
       WS.mk .CONNECTED .DISCONNECTED [] [] 0) ∧
    Err.toSpec (.runtimeError
        "Cannot call \"send\" once a close message has been sent.") =
      some .alreadyTerminated :=
  c7_send_after_closed _ _ rfl


/-- C4: from both states `CONNECTING`, `accept()` followed immediately
by `send_text "x"` succeeds iff the first inbound event delivered by
the transport is the `websocket.connect` handshake; if that first event
is anything else, `accept()` fails fatally with `AssertionError` (a
ContractViolation) and `application_state` (localState) is still
`CONNECTING` afterward — the accept message was never sent. -/
theorem c4_accept_sendtext (ws : WS) (m : Message) (rest : List Message)
    (hc : ws.client_state = .CONNECTING) (ha : ws.application_state = .CONNECTING)
    (hi : ws.inbox = m :: rest) :
    ((acceptThenSendText ws).1 = .ok () ↔ m.type = .connect) ∧
    (¬ m.type = .connect →
      (ws.accept none).1 = .error .assertionError ∧
      Err.toSpec .assertionError = some .contractViolation ∧
      (ws.accept none).2.application_state = .CONNECTING ∧
      (ws.accept none).2.sent = ws.sent) := by
  rcases ws with ⟨cs, as, inbox, sent, rc⟩
  simp only at hc ha hi
  subst hc; subst ha; subst hi
  by_cases ht : m.type = .connect
  · simp [acceptThenSendText, WS.accept, WS.receive, WS.send, WS.send_text,
          acceptMsg, ht]
  · simp [acceptThenSendText, WS.accept, WS.receive, WS.send, Err.toSpec, ht]

/-- Witness for C4: handshake first (success) at a concrete
connection.  The non-handshake side is exercised by the hypotheses of
`c2ws`-like states through the same theorem; here the `iff` is applied
with the handshake event. -/
theorem c4_witness :
    ((acceptThenSendText (WS.mk .CONNECTING .CONNECTING
        [⟨.connect, none, none, none, none⟩] [] 0)).1 = .ok () ↔
      (⟨.connect, none, none, none, none⟩ : Message).type = .connect) ∧
    (¬ (⟨.connect, none, none, none, none⟩ : Message).type = .connect →
      ((WS.mk .CONNECTING .CONNECTING
          [⟨.connect, none, none, none, none⟩] [] 0).accept none).1 =
        .error .assertionError ∧
      Err.toSpec .assertionError = some .contractViolation ∧
      ((WS.mk .CONNECTING .CONNECTING
          [⟨.connect, none, none, none, none⟩] [] 0).accept none).2.application_state =
        .CONNECTING ∧
      ((WS.mk .CONNECTING .CONNECTING
          [⟨.connect, none, none, none, none⟩] [] 0).accept none).2.sent = []) :=
  c4_accept_sendtext _ _ [] rfl rfl rfl

/-- C5: when `application_state` (localState) is `CONNECTING` or
`CONNECTED`, `close(4000)` succeeds, sets `application_state` to
`DISCONNECTED`, and hands the transport exactly the single event
`{"type": "websocket.close", "code": 4000}`; afterwards — even after
any further sequence of receive/send operations — every subsequent
`close` fails with the `RuntimeError` (AlreadyTerminatedError). -/
theorem c5_close (ws : WS) (ops : List Op) (code2 : Int)
    (h : ws.application_state = .CONNECTING ∨ ws.application_state = .CONNECTED) :
    ws.close 4000 =
      (.ok (), { ws with
                 application_state := .DISCONNECTED,
                 sent := ws.sent ++ [⟨.close, none, none, some 4000, none⟩] }) ∧
    ((stepAll (ws.close 4000).2 ops).close code2).1 =
      .error (.runtimeError "Cannot call \"send\" once a close message has been sent.") ∧
    Err.toSpec (.runtimeError
        "Cannot call \"send\" once a close message has been sent.") =
      some .alreadyTerminated := by
  have h1 : ws.close 4000 =
      (.ok (), { ws with
                 application_state := .DISCONNECTED,
                 sent := ws.sent ++ [⟨.close, none, none, some 4000, none⟩] }) := by
    rcases ws with ⟨cs, as, inbox, sent, rc⟩
    rcases h with h | h <;> (simp only at h; subst h; simp [WS.close, WS.send])
  refine ⟨h1, ?_, rfl⟩
  have hd : (ws.close 4000).2.application_state = .DISCONNECTED := by rw [h1]
  have hall := stepAll_disc ops _ hd
  rw [WS.close, send_at_disconnected _ _ hall]

/-- Witness for C5 at a concrete open connection, with one further
receive operation between the two `close` calls. -/
theorem c5_witness :
    (WS.mk .CONNECTED .CONNECTED [] [] 0).close 4000 =
      (.ok (), WS.mk .CONNECTED .DISCONNECTED []
        [⟨.close, none, none, some 4000, none⟩] 0) ∧
    ((stepAll ((WS.mk .CONNECTED .CONNECTED [] [] 0).close 4000).2
        [Op.opReceive]).close 1000).1 =
      .error (.runtimeError "Cannot call \"send\" once a close message has been sent.") ∧
    Err.toSpec (.runtimeError
        "Cannot call \"send\" once a close message has been sent.") =
      some .alreadyTerminated := by
  simpa using c5_close (WS.mk .CONNECTED .CONNECTED [] [] 0) [Op.opReceive] 1000
    (Or.inr rfl)

/-- C10: for an inbound `websocket.receive` event whose `text` payload
is populated, `receive_text` (with both states `CONNECTED`) returns
that text without error, with no condition on the `bytes` field — a
simultaneously populated binary payload is ignored, not rejected. -/
theorem c10_receive_text_ignores_bytes (ws : WS) (m : Message)
    (rest : List Message) (t : String)
    (ha : ws.application_state = .CONNECTED) (hc : ws.client_state = .CONNECTED)
    (hi : ws.inbox = m :: rest) (ht : m.type = .receive) (htx : m.text = some t) :
    ws.receive_text = (.ok t,
      { ws with inbox := rest, recvCalls := ws.recvCalls + 1 }) := by
  rcases ws with ⟨cs, as, inbox, sent, rc⟩
  simp only at ha hc hi
  subst ha; subst hc; subst hi
  simp [WS.receive_text, WS.receive, raise_on_disconnect, ht, htx]

/-- Witness for C10: a data message carrying both a text and a binary
payload; the text comes back, the bytes are ignored. -/
theorem c10_witness :
    (WS.mk .CONNECTED .CONNECTED
        [⟨.receive, some "hello", some [1, 2, 3], none, none⟩] [] 0).receive_text =
      (.ok "hello", WS.mk .CONNECTED .CONNECTED [] [] 1) := by
  simpa using c10_receive_text_ignores_bytes
    (WS.mk .CONNECTED .CONNECTED
      [⟨.receive, some "hello", some [1, 2, 3], none, none⟩] [] 0)
    ⟨.receive, some "hello", some [1, 2, 3], none, none⟩ [] "hello"
    rfl rfl rfl rfl rfl

/-- C3: for an inbound `websocket.receive` event with neither `text`
nor `bytes` populated, every typed receive helper (`receive_text`,
`receive_bytes`, `receive_json` in both modes) fails with `KeyError` —
a MalformedPayloadError in the spec's taxonomy, not a
ContractViolation. -/
theorem c3_missing_payload_malformed (ws : WS) (m : Message)
    (rest : List Message)
    (ha : ws.application_state = .CONNECTED) (hc : ws.client_state = .CONNECTED)
    (hi : ws.inbox = m :: rest) (ht : m.type = .receive)
    (htx : m.text = none) (hb : m.bytes = none) :
    ws.receive_text.1 = .error .keyError ∧
    ws.receive_bytes.1 = .error .keyError ∧
    (ws.receive_json "text").1 = .error .keyError ∧
    (ws.receive_json "binary").1 = .error .keyError ∧
    Err.toSpec .keyError = some .malformedPayload ∧
    ¬ Err.toSpec .keyError = some .contractViolation := by
  rcases ws with ⟨cs, as, inbox, sent, rc⟩
  simp only at ha hc hi
  subst ha; subst hc; subst hi
  refine ⟨?_, ?_, ?_, ?_, rfl, by simp [Err.toSpec]⟩ <;>
    simp [WS.receive_text, WS.receive_bytes, WS.receive_json, WS.receive,
          raise_on_disconnect, ht, htx, hb]

/-- Witness for C3 at a concrete payload-less data message. -/
theorem c3_witness :
    (WS.mk .CONNECTED .CONNECTED
        [⟨.receive, none, none, none, none⟩] [] 0).receive_text.1 =
      .error .keyError ∧
    (WS.mk .CONNECTED .CONNECTED
        [⟨.receive, none, none, none, none⟩] [] 0).receive_bytes.1 =
      .error .keyError ∧
    ((WS.mk .CONNECTED .CONNECTED
        [⟨.receive, none, none, none, none⟩] [] 0).receive_json "text").1 =
      .error .keyError ∧
    ((WS.mk .CONNECTED .CONNECTED
        [⟨.receive, none, none, none, none⟩] [] 0).receive_json "binary").1 =
      .error .keyError ∧
    Err.toSpec .keyError = some .malformedPayload ∧
    ¬ Err.toSpec .keyError = some .contractViolation :=
  c3_missing_payload_malformed _ ⟨.receive, none, none, none, none⟩ []
    rfl rfl rfl rfl rfl rfl

/-- C8: with both states `CONNECTED` and the inbound sequence
`[DataMessage "a", DataMessage "b", Termination 1000]`, `iter_text`
yields exactly `["a", "b"]` and then ends cleanly (`IterEnd.ended`):
the `WebSocketDisconnect` raised by `receive_text` on the termination
event is absorbed by the iterator's `except` clause and no error
reaches the consumer. -/
theorem c8_iter_text (ws : WS) (fuel : Nat) (hf : 3 ≤ fuel)
    (hc : ws.client_state = .CONNECTED) (ha : ws.application_state = .CONNECTED)
    (hi : ws.inbox = [⟨.receive, some "a", none, none, none⟩,
                      ⟨.receive, some "b", none, none, none⟩,
                      ⟨.disconnect, none, none, some 1000, none⟩]) :
    WS.iter_text fuel ws = (["a", "b"], .ended,
      { ws with
        inbox := [],
        client_state := .DISCONNECTED,
        recvCalls := ws.recvCalls + 3 }) := by
  obtain ⟨k, rfl⟩ : ∃ k, fuel = k + 3 := ⟨fuel - 3, by omega⟩
  rcases ws with ⟨cs, as, inbox, sent, rc⟩
  simp only at hc ha hi
  subst hc; subst ha; subst hi
  show WS.iter_text (k + 3) _ = _
  simp [WS.iter_text, WS.receive_text, WS.receive, raise_on_disconnect]

/-- Witness for C8 at a concrete connection and fuel value. -/
theorem c8_witness :
    WS.iter_text 5 (WS.mk .CONNECTED .CONNECTED
        [⟨.receive, some "a", none, none, none⟩,
         ⟨.receive, some "b", none, none, none⟩,
         ⟨.disconnect, none, none, some 1000, none⟩] [] 0) =
      (["a", "b"], .ended, WS.mk .DISCONNECTED .CONNECTED [] [] 3) := by
  simpa using c8_iter_text
    (WS.mk .CONNECTED .CONNECTED
      [⟨.receive, some "a", none, none, none⟩,
       ⟨.receive, some "b", none, none, none⟩,
       ⟨.disconnect, none, none, some 1000, none⟩] [] 0)
    5 (by omega) rfl rfl rfl

/-! ## Decimal digit lemmas for the JSON codec -/

theorem natToDigitsAux_shift : ∀ n fuel acc, n < fuel →
    natToDigitsAux fuel n acc = natToChars n ++ acc := by
  intro n
  induction n using Nat.strong_induction_on with
  | _ n ih =>
    intro fuel acc hfuel
    obtain ⟨f, rfl⟩ : ∃ f, fuel = f + 1 := ⟨fuel - 1, by omega⟩
    by_cases h10 : n < 10
    · simp [natToDigitsAux, natToChars, h10]
    · have hpos : 0 < n := by omega
      have hdiv : n / 10 < n := Nat.div_lt_self hpos (by omega)
      rw [natToDigitsAux, if_neg h10,
          ih (n / 10) hdiv f (digitChar (n % 10) :: acc) (by omega)]
      have hrhs : natToChars n = natToChars (n / 10) ++ [digitChar (n % 10)] := by
        rw [natToChars, natToDigitsAux, if_neg h10,
            ih (n / 10) hdiv n (digitChar (n % 10) :: []) (by omega)]
      rw [hrhs, List.append_assoc, List.singleton_append]

theorem natToChars_rec (n : Nat) (h : 10 ≤ n) :
    natToChars n = natToChars (n / 10) ++ [digitChar (n % 10)] := by
  have h10 : ¬ n < 10 := by omega
  have hdiv : n / 10 < n + 1 := by omega
  rw [natToChars, natToDigitsAux, if_neg h10, natToDigitsAux_shift _ _ _ (by omega)]

theorem natToChars_lt10 (n : Nat) (h : n < 10) :
    natToChars n = [digitChar n] := by
  simp [natToChars, natToDigitsAux, h]

theorem digitChar_isDigit (d : Nat) (h : d < 10) :
    (digitChar d).isDigit = true := by
  interval_cases d <;> decide

theorem digitChar_toNat (d : Nat) (h : d < 10) :
    (digitChar d).toNat = 48 + d := by
  interval_cases d <;> decide

theorem natToChars_digits : ∀ n : Nat,
    (∀ c ∈ natToChars n, c.isDigit = true) ∧ natToChars n ≠ [] := by
  intro n
  induction n using Nat.strong_induction_on with
  | _ n ih =>
    by_cases h10 : n < 10
    · rw [natToChars_lt10 n h10]
      exact ⟨by simpa using digitChar_isDigit n h10, by simp⟩
    · have hdiv : n / 10 < n := Nat.div_lt_self (by omega) (by omega)
      rw [natToChars_rec n (by omega)]
      refine ⟨?_, by simp⟩
      intro c hc
      rcases List.mem_append.mp hc with hc | hc
      · exact (ih _ hdiv).1 c hc
      · simp only [List.mem_singleton] at hc
        subst hc
        exact digitChar_isDigit _ (Nat.mod_lt _ (by omega))

theorem takeDigits_append : ∀ ds rest, (∀ c ∈ ds, c.isDigit = true) →
    (∀ d cs', rest = d :: cs' → d.isDigit = false) →
    takeDigits (ds ++ rest) = (ds, rest) := by
  intro ds
  induction ds with
  | nil =>
    intro rest _ hrest
    cases rest with
    | nil => rfl
    | cons d cs' =>
      simp only [List.nil_append, takeDigits, hrest d cs' rfl]
      simp
  | cons c cs ihd =>
    intro rest hds hrest
    have hc : c.isDigit = true := hds c (by simp)
    simp only [List.cons_append, takeDigits, hc, if_pos, List.append_eq]
    rw [ihd rest (fun x hx => hds x (by simp [hx])) hrest]

theorem digitsToNat_append : ∀ ds1 ds2 a,
    digitsToNat a (ds1 ++ ds2) = digitsToNat (digitsToNat a ds1) ds2 := by
  intro ds1
  induction ds1 with
  | nil => intro ds2 a; rfl
  | cons c cs ihd => intro ds2 a; exact ihd ds2 (10 * a + (c.toNat - 48))

theorem digitsToNat_natToChars : ∀ n a : Nat,
    digitsToNat a (natToChars n) = a * 10 ^ (natToChars n).length + n := by
  intro n
  induction n using Nat.strong_induction_on with
  | _ n ih =>
    intro a
    by_cases h10 : n < 10
    · rw [natToChars_lt10 n h10]
      have h1 : digitsToNat a [digitChar n] = 10 * a + ((digitChar n).toNat - 48) := rfl
      rw [h1, digitChar_toNat n h10, List.length_singleton, pow_one]
      omega
    · have hdiv : n / 10 < n := Nat.div_lt_self (by omega) (by omega)
      rw [natToChars_rec n (by omega), digitsToNat_append,
          ih (n / 10) hdiv a]
      have h1 : ∀ b : Nat, digitsToNat b [digitChar (n % 10)] =
          10 * b + ((digitChar (n % 10)).toNat - 48) := fun b => rfl
      rw [h1, digitChar_toNat (n % 10) (Nat.mod_lt _ (by omega)),
          List.length_append, List.length_singleton,
          pow_succ 10 (natToChars (n / 10)).length]
      have hmod : 10 * (n / 10) + n % 10 = n := Nat.div_add_mod n 10
      generalize (10 : Nat) ^ (natToChars (n / 10)).length = P
      rw [← mul_assoc a P 10]
      generalize hq : a * P = q
      omega

theorem digitsToNat_natToChars0 (n : Nat) :
    digitsToNat 0 (natToChars n) = n := by
  simpa using digitsToNat_natToChars n 0

theorem psa_quote (cs acc : List Char) :
    parseStringAux ('"' :: cs) acc = some (⟨acc.reverse⟩, cs) := by
  rw [parseStringAux.eq_def]
  simp

theorem psa_lit (c : Char) (cs acc : List Char) (h1 : ¬ c = '"') (h2 : ¬ c = '\\') :
    parseStringAux (c :: cs) acc = parseStringAux cs (c :: acc) := by
  rw [parseStringAux.eq_def]
  dsimp only
  rw [if_neg h1, if_neg h2]

theorem psa_esc_quote (cs acc : List Char) :
    parseStringAux ('\\' :: '"' :: cs) acc = parseStringAux cs ('"' :: acc) := by
  rw [parseStringAux.eq_def]
  simp

theorem psa_esc_back (cs acc : List Char) :
    parseStringAux ('\\' :: '\\' :: cs) acc = parseStringAux cs ('\\' :: acc) := by
  rw [parseStringAux.eq_def]
  simp

theorem psa_esc_u00 (h3 h4 : Char) (cs acc : List Char) (a b : Nat)
    (hh3 : hexVal h3 = some a) (hh4 : hexVal h4 = some b) :
    parseStringAux ('\\' :: 'u' :: '0' :: '0' :: h3 :: h4 :: cs) acc =
      parseStringAux cs (Char.ofNat (16 * a + b) :: acc) := by
  rw [parseStringAux.eq_def]
  dsimp only
  rw [show hexVal '0' = some 0 from rfl, hh3, hh4]
  norm_num
  rw [if_neg (by decide), if_neg (by decide), if_neg (by decide),
      if_neg (by decide), if_neg (by decide), if_neg (by decide),
      if_neg (by decide)]

theorem skipWs_cons_of (c : Char) (cs : List Char) (h : isWsChar c = false) :
    skipWs (c :: cs) = c :: cs := by simp [skipWs, h]

theorem skipWs_cons_sp (cs : List Char) : skipWs (' ' :: cs) = skipWs cs := by
  simp [skipWs, isWsChar]

theorem hexVal_hexDigitChar (x : Nat) (h : x < 16) :
    hexVal (hexDigitChar x) = some x := by
  interval_cases x <;> decide

theorem parseStringAux_round : ∀ (cs acc rest : List Char),
    parseStringAux (escapeStr cs ++ '"' :: rest) acc =
      some (⟨acc.reverse ++ cs⟩, rest) := by
  intro cs
  induction cs with
  | nil =>
    intro acc rest
    simp only [escapeStr, List.nil_append]
    rw [psa_quote]
    simp
  | cons c cs ihc =>
    intro acc rest
    simp only [escapeStr, List.append_assoc]
    by_cases h1 : c = '"'
    · subst h1
      rw [show escapeChar '"' = ['\\', '"'] from rfl]
      rw [List.cons_append, List.cons_append, List.nil_append,
          psa_esc_quote, ihc]
      simp
    · by_cases h2 : c = '\\'
      · subst h2
        rw [show escapeChar '\\' = ['\\', '\\'] from rfl]
        rw [List.cons_append, List.cons_append, List.nil_append,
            psa_esc_back, ihc]
        simp
      · by_cases h3 : c.toNat < 32
        · rw [show escapeChar c = ['\\', 'u', '0', '0',
              hexDigitChar (c.toNat / 16), hexDigitChar (c.toNat % 16)] by
            rw [escapeChar, if_neg h1, if_neg h2, if_pos h3]]
          rw [List.cons_append, List.cons_append, List.cons_append,
              List.cons_append, List.cons_append, List.cons_append,
              List.nil_append]
          rw [psa_esc_u00 _ _ _ _ (c.toNat / 16) (c.toNat % 16)
              (hexVal_hexDigitChar _ (by omega))
              (hexVal_hexDigitChar _ (Nat.mod_lt _ (by omega)))]
          rw [show 16 * (c.toNat / 16) + c.toNat % 16 = c.toNat by omega,
              Char.ofNat_toNat, ihc]
          simp
        · rw [show escapeChar c = [c] by
            rw [escapeChar, if_neg h1, if_neg h2, if_neg h3]]
          rw [List.cons_append, List.nil_append, psa_lit c _ _ h1 h2, ihc]
          simp

theorem isDigit_ne (c d : Char) (h : c.isDigit = true) (hd : d.isDigit = false) :
    ¬ c = d := by
  intro hc
  rw [hc] at h
  rw [h] at hd
  cases hd

theorem isDigit_not_ws (c : Char) (h : c.isDigit = true) : isWsChar c = false := by
  simp only [isWsChar, Bool.or_eq_false_iff, decide_eq_false_iff_not]
  exact ⟨⟨⟨isDigit_ne c ' ' h (by decide), isDigit_ne c '\n' h (by decide)⟩,
    isDigit_ne c '\t' h (by decide)⟩, isDigit_ne c '\x0d' h (by decide)⟩

theorem pv_null (f : Nat) (rest : List Char) :
    parseValue (f + 1) ('n' :: 'u' :: 'l' :: 'l' :: rest) = some (.null, rest) := by
  rw [parseValue.eq_def]
  dsimp only
  rw [skipWs_cons_of _ _ (by decide)]
  dsimp only
  rw [if_pos rfl]
  rfl

theorem pv_true (f : Nat) (rest : List Char) :
    parseValue (f + 1) ('t' :: 'r' :: 'u' :: 'e' :: rest) = some (.bool true, rest) := by
  rw [parseValue.eq_def]
  dsimp only
  rw [skipWs_cons_of _ _ (by decide)]
  dsimp only
  rw [if_neg (by decide), if_pos rfl]
  rfl

theorem pv_false (f : Nat) (rest : List Char) :
    parseValue (f + 1) ('f' :: 'a' :: 'l' :: 's' :: 'e' :: rest) =
      some (.bool false, rest) := by
  rw [parseValue.eq_def]
  dsimp only
  rw [skipWs_cons_of _ _ (by decide)]
  dsimp only
  rw [if_neg (by decide), if_neg (by decide), if_pos rfl]
  rfl

theorem pv_str (f : Nat) (cs : List Char) :
    parseValue (f + 1) ('"' :: cs) =
      match parseStringAux cs [] with
      | some (s, r) => some (.str s, r)
      | none => none := by
  rw [parseValue.eq_def]
  dsimp only
  rw [skipWs_cons_of _ _ (by decide)]
  dsimp only
  rw [if_neg (by decide), if_neg (by decide), if_neg (by decide), if_pos rfl]

theorem pv_neg (f : Nat) (cs : List Char) :
    parseValue (f + 1) ('-' :: cs) =
      match takeDigits cs with
      | ([], _) => none
      | (ds, r) => some (.num (-(digitsToNat 0 ds : Int)), r) := by
  rw [parseValue.eq_def]
  dsimp only
  rw [skipWs_cons_of _ _ (by decide)]
  dsimp only
  rw [if_neg (by decide), if_neg (by decide), if_neg (by decide),
      if_neg (by decide), if_pos rfl]

theorem pv_digit (f : Nat) (c : Char) (cs : List Char) (h : c.isDigit = true) :
    parseValue (f + 1) (c :: cs) =
      match takeDigits (c :: cs) with
      | ([], _) => none
      | (ds, r) => some (.num ((digitsToNat 0 ds : Nat) : Int), r) := by
  rw [parseValue.eq_def]
  dsimp only
  rw [skipWs_cons_of _ _ (isDigit_not_ws c h)]
  dsimp only
  rw [if_neg (isDigit_ne c 'n' h (by decide)),
      if_neg (isDigit_ne c 't' h (by decide)),
      if_neg (isDigit_ne c 'f' h (by decide)),
      if_neg (isDigit_ne c '"' h (by decide)),
      if_neg (isDigit_ne c '-' h (by decide)),
      if_pos h]

theorem pv_arr (f : Nat) (cs : List Char) :
    parseValue (f + 1) ('[' :: cs) =
      match skipWs cs with
      | ']' :: r => some (.arr [], r)
      | cs2 =>
        match parseElems f cs2 with
        | some (vs, r) => some (.arr vs, r)
        | none => none := by
  rw [parseValue.eq_def]
  dsimp only
  rw [skipWs_cons_of _ _ (by decide)]
  dsimp only
  rw [if_neg (by decide), if_neg (by decide), if_neg (by decide),
      if_neg (by decide), if_neg (by decide), if_neg (by decide), if_pos rfl]

theorem pv_obj (f : Nat) (cs : List Char) :
    parseValue (f + 1) ('\x7b' :: cs) =
      match skipWs cs with
      | '\x7d' :: r => some (.obj [], r)
      | cs2 =>
        match parseMembers f cs2 with
        | some (kvs, r) => some (.obj kvs, r)
        | none => none := by
  rw [parseValue.eq_def]
  dsimp only
  rw [skipWs_cons_of _ _ (by decide)]
  dsimp only
  rw [if_neg (by decide), if_neg (by decide), if_neg (by decide),
      if_neg (by decide), if_neg (by decide), if_neg (by decide),
      if_neg (by decide), if_pos rfl]

theorem pv_ws (f : Nat) (cs : List Char) :
    parseValue (f + 1) (' ' :: cs) = parseValue (f + 1) cs := by
  conv_lhs => rw [parseValue.eq_def]
  conv_rhs => rw [parseValue.eq_def]
  dsimp only
  rw [skipWs_cons_sp]

theorem pe_ws (g : Nat) (cs : List Char) :
    parseElems (g + 2) (' ' :: cs) = parseElems (g + 2) cs := by
  conv_lhs => rw [parseElems.eq_def]
  conv_rhs => rw [parseElems.eq_def]
  dsimp only
  rw [pv_ws]

theorem pm_ws (f : Nat) (cs : List Char) :
    parseMembers (f + 1) (' ' :: cs) = parseMembers (f + 1) cs := by
  conv_lhs => rw [parseMembers.eq_def]
  conv_rhs => rw [parseMembers.eq_def]
  dsimp only
  rw [skipWs_cons_sp]

theorem dumpsVal_null : dumpsVal .null = ['n', 'u', 'l', 'l'] := by
  rw [dumpsVal.eq_def]

theorem dumpsVal_true : dumpsVal (.bool true) = ['t', 'r', 'u', 'e'] := by
  rw [dumpsVal.eq_def]
  rfl

theorem dumpsVal_false : dumpsVal (.bool false) = ['f', 'a', 'l', 's', 'e'] := by
  rw [dumpsVal.eq_def]
  rfl

theorem dumpsVal_num (n : Int) : dumpsVal (.num n) = dumpsInt n := by
  rw [dumpsVal.eq_def]

theorem dumpsVal_str (s : String) : dumpsVal (.str s) = dumpsStr s := by
  rw [dumpsVal.eq_def]

theorem dumpsVal_arr (xs : List JsonValue) :
    dumpsVal (.arr xs) = '[' :: dumpsElems xs := by
  rw [dumpsVal.eq_def]

theorem dumpsVal_obj (kvs : List (String × JsonValue)) :
    dumpsVal (.obj kvs) = '\x7b' :: dumpsMembers kvs := by
  rw [dumpsVal.eq_def]

theorem dumpsElems_nil : dumpsElems [] = [']'] := by
  rw [dumpsElems.eq_def]

theorem dumpsElems_single (x : JsonValue) :
    dumpsElems [x] = dumpsVal x ++ [']'] := by
  rw [dumpsElems.eq_def]

theorem dumpsElems_cons (x y : JsonValue) (xs : List JsonValue) :
    dumpsElems (x :: y :: xs) = dumpsVal x ++ ',' :: ' ' :: dumpsElems (y :: xs) := by
  rw [dumpsElems.eq_def]

theorem dumpsMembers_nil : dumpsMembers [] = ['\x7d'] := by
  rw [dumpsMembers.eq_def]

theorem dumpsMembers_single (k : String) (v : JsonValue) :
    dumpsMembers [(k, v)] = dumpsStr k ++ ':' :: ' ' :: (dumpsVal v ++ ['\x7d']) := by
  rw [dumpsMembers.eq_def]

theorem dumpsMembers_cons (k : String) (v : JsonValue) (m : String × JsonValue)
    (kvs : List (String × JsonValue)) :
    dumpsMembers ((k, v) :: m :: kvs) =
      dumpsStr k ++ ':' :: ' ' :: (dumpsVal v ++ ',' :: ' ' :: dumpsMembers (m :: kvs)) := by
  rw [dumpsMembers.eq_def]

theorem jsize_null : jsize .null = 1 := by rw [jsize.eq_def]
theorem jsize_bool (b : Bool) : jsize (.bool b) = 1 := by rw [jsize.eq_def]
theorem jsize_num (n : Int) : jsize (.num n) = 1 := by rw [jsize.eq_def]
theorem jsize_str (s : String) : jsize (.str s) = 1 := by rw [jsize.eq_def]
theorem jsize_arr (xs : List JsonValue) : jsize (.arr xs) = 1 + jsizeElems xs := by
  rw [jsize.eq_def]
theorem jsize_obj (kvs : List (String × JsonValue)) :
    jsize (.obj kvs) = 1 + jsizeMembers kvs := by
  rw [jsize.eq_def]
theorem jsizeElems_nil : jsizeElems [] = 1 := by rw [jsizeElems.eq_def]
theorem jsizeElems_cons (x : JsonValue) (xs : List JsonValue) :
    jsizeElems (x :: xs) = jsize x + jsizeElems xs := by
  rw [jsizeElems.eq_def]
theorem jsizeMembers_nil : jsizeMembers [] = 1 := by rw [jsizeMembers.eq_def]
theorem jsizeMembers_cons (k : String) (v : JsonValue)
    (kvs : List (String × JsonValue)) :
    jsizeMembers ((k, v) :: kvs) = 1 + jsize v + jsizeMembers kvs := by
  rw [jsizeMembers.eq_def]

theorem jsize_pos (v : JsonValue) : 1 ≤ jsize v := by
  cases v with
  | null => rw [jsize_null]
  | bool b => rw [jsize_bool]
  | num n => rw [jsize_num]
  | str s => rw [jsize_str]
  | arr xs => rw [jsize_arr]; omega
  | obj kvs => rw [jsize_obj]; omega

theorem jsizeElems_pos (xs : List JsonValue) : 1 ≤ jsizeElems xs := by
  cases xs with
  | nil => rw [jsizeElems_nil]
  | cons x xs =>
    rw [jsizeElems_cons]
    have := jsize_pos x
    omega

theorem jsizeMembers_pos (kvs : List (String × JsonValue)) : 1 ≤ jsizeMembers kvs := by
  cases kvs with
  | nil => rw [jsizeMembers_nil]
  | cons kv kvs =>
    obtain ⟨k, v⟩ := kv
    rw [jsizeMembers_cons]
    omega

theorem dumpsVal_head (v : JsonValue) :
    ∃ c l, dumpsVal v = c :: l ∧ isWsChar c = false ∧ ¬ c = ']' ∧ ¬ c = '\x7d' := by
  cases v with
  | null => exact ⟨'n', _, dumpsVal_null, by decide, by decide, by decide⟩
  | bool b =>
    cases b with
    | false => exact ⟨'f', _, dumpsVal_false, by decide, by decide, by decide⟩
    | true => exact ⟨'t', _, dumpsVal_true, by decide, by decide, by decide⟩
  | num n =>
    rw [dumpsVal_num]
    by_cases hn : n < 0
    · exact ⟨'-', natToChars (-n).toNat, by simp only [dumpsInt, if_pos hn],
        by decide, by decide, by decide⟩
    · obtain ⟨hds, hne⟩ := natToChars_digits n.toNat
      obtain ⟨d, ds2, hcons⟩ := List.exists_cons_of_ne_nil hne
      have hd : d.isDigit = true := hds d (by rw [hcons]; simp)
      exact ⟨d, ds2, by simp only [dumpsInt, if_neg hn, hcons],
        isDigit_not_ws d hd, isDigit_ne d ']' hd (by decide),
        isDigit_ne d '\x7d' hd (by decide)⟩
  | str s =>
    exact ⟨'"', _, by rw [dumpsVal_str, dumpsStr], by decide, by decide, by decide⟩
  | arr xs => exact ⟨'[', _, dumpsVal_arr xs, by decide, by decide, by decide⟩
  | obj kvs => exact ⟨'\x7b', _, dumpsVal_obj kvs, by decide, by decide, by decide⟩

theorem pv_dumpsInt (f : Nat) (n : Int) (rest : List Char)
    (hrest : ∀ d cs2, rest = d :: cs2 → d.isDigit = false) :
    parseValue (f + 1) (dumpsInt n ++ rest) = some (.num n, rest) := by
  by_cases hn : n < 0
  · obtain ⟨hds, hne⟩ := natToChars_digits (-n).toNat
    obtain ⟨d, ds2, hcons⟩ := List.exists_cons_of_ne_nil hne
    simp only [dumpsInt, if_pos hn, List.cons_append]
    rw [pv_neg, takeDigits_append _ _ hds hrest, hcons]
    dsimp only
    have hval : digitsToNat 0 (d :: ds2) = (-n).toNat := by
      rw [← hcons]; exact digitsToNat_natToChars0 _
    rw [hval]
    have hcast : (((-n).toNat : Nat) : Int) = -n := Int.toNat_of_nonneg (by omega)
    rw [hcast, neg_neg]
  · obtain ⟨hds, hne⟩ := natToChars_digits n.toNat
    obtain ⟨d, ds2, hcons⟩ := List.exists_cons_of_ne_nil hne
    have hds2 : ∀ c ∈ d :: ds2, c.isDigit = true := by rw [← hcons]; exact hds
    have hd : d.isDigit = true := hds2 d (by simp)
    simp only [dumpsInt, if_neg hn, hcons, List.cons_append]
    rw [pv_digit f d _ hd, ← List.cons_append, takeDigits_append _ _ hds2 hrest]
    dsimp only
    have hval : digitsToNat 0 (d :: ds2) = n.toNat := by
      rw [← hcons]; exact digitsToNat_natToChars0 _
    rw [hval, Int.toNat_of_nonneg (by omega)]

theorem parse_dumps_main : ∀ N : Nat,
    (∀ v : JsonValue, sizeOf v ≤ N → ∀ f rest, jsize v ≤ f →
      (∀ d cs2, rest = d :: cs2 → d.isDigit = false) →
      parseValue f (dumpsVal v ++ rest) = some (v, rest)) ∧
    (∀ x : JsonValue, ∀ xs : List JsonValue, sizeOf x + sizeOf xs ≤ N →
      ∀ f rest, jsizeElems (x :: xs) ≤ f →
      (∀ d cs2, rest = d :: cs2 → d.isDigit = false) →
      parseElems f (dumpsElems (x :: xs) ++ rest) = some (x :: xs, rest)) ∧
    (∀ k : String, ∀ v : JsonValue, ∀ kvs : List (String × JsonValue),
      sizeOf v + sizeOf kvs ≤ N → ∀ f rest, jsizeMembers ((k, v) :: kvs) ≤ f →
      (∀ d cs2, rest = d :: cs2 → d.isDigit = false) →
      parseMembers f (dumpsMembers ((k, v) :: kvs) ++ rest) =
        some ((k, v) :: kvs, rest)) := by
  intro N
  induction N using Nat.strong_induction_on with
  | _ N ih =>
    refine ⟨?_, ?_, ?_⟩
    · -- values
      intro v hsz f rest hf hrest
      obtain ⟨f1, rfl⟩ : ∃ f1, f = f1 + 1 := ⟨f - 1, by have := jsize_pos v; omega⟩
      cases v with
      | null => rw [dumpsVal_null]; exact pv_null f1 rest
      | bool b =>
        cases b with
        | true => rw [dumpsVal_true]; exact pv_true f1 rest
        | false => rw [dumpsVal_false]; exact pv_false f1 rest
      | num n => rw [dumpsVal_num]; exact pv_dumpsInt f1 n rest hrest
      | str s =>
        rw [dumpsVal_str, dumpsStr, List.cons_append, pv_str,
            List.append_assoc, List.singleton_append, parseStringAux_round]
        rfl
      | arr xs =>
        cases xs with
        | nil =>
          rw [dumpsVal_arr, dumpsElems_nil, List.cons_append, pv_arr,
              List.singleton_append, skipWs_cons_of _ _ (by decide)]
          rfl
        | cons x xs =>
          rw [dumpsVal_arr, List.cons_append, pv_arr]
          obtain ⟨c, l, hcl, hws, hne1, hne2⟩ := dumpsVal_head x
          have hshape : ∃ tail, dumpsElems (x :: xs) ++ rest = c :: tail := by
            cases xs with
            | nil =>
              exact ⟨l ++ [']'] ++ rest, by rw [dumpsElems_single, hcl]; simp⟩
            | cons y ys =>
              exact ⟨l ++ ',' :: ' ' :: dumpsElems (y :: ys) ++ rest,
                by rw [dumpsElems_cons, hcl]; simp⟩
          obtain ⟨tail, htail⟩ := hshape
          rw [htail, skipWs_cons_of _ _ hws, ← htail]
          have hN : 1 ≤ N := by
            have h1 : sizeOf (JsonValue.arr (x :: xs)) =
                1 + (1 + sizeOf x + sizeOf xs) := by simp
            omega
          have helems := (ih (N - 1) (by omega)).2.1 x xs
            (by
              have h1 : sizeOf (JsonValue.arr (x :: xs)) =
                  1 + (1 + sizeOf x + sizeOf xs) := by simp
              omega)
            f1 rest
            (by rw [jsize_arr] at hf; omega)
            hrest
          split
          · next r heq =>
            rw [htail] at heq
            injection heq with heq1 heq2
            exact absurd heq1 hne1
          · next =>
            rw [helems]
      | obj kvs =>
        cases kvs with
        | nil =>
          rw [dumpsVal_obj, dumpsMembers_nil, List.cons_append, pv_obj,
              List.singleton_append, skipWs_cons_of _ _ (by decide)]
          rfl
        | cons kv kvs =>
          obtain ⟨k, v⟩ := kv
          rw [dumpsVal_obj, List.cons_append, pv_obj]
          have hshape : ∃ tail,
              dumpsMembers ((k, v) :: kvs) ++ rest = '"' :: tail := by
            cases kvs with
            | nil =>
              exact ⟨(escapeStr k.data ++ ['"']) ++
                  ':' :: ' ' :: (dumpsVal v ++ ['\x7d']) ++ rest,
                by rw [dumpsMembers_single, dumpsStr]; simp⟩
            | cons m kvs =>
              exact ⟨(escapeStr k.data ++ ['"']) ++
                  ':' :: ' ' :: (dumpsVal v ++
                    ',' :: ' ' :: dumpsMembers (m :: kvs)) ++ rest,
                by rw [dumpsMembers_cons, dumpsStr]; simp⟩
          obtain ⟨tail, htail⟩ := hshape
          rw [htail, skipWs_cons_of _ _ (by decide), ← htail]
          have hmem := (ih (N - 1)
              (by
                have h1 : sizeOf (JsonValue.obj ((k, v) :: kvs)) =
                    1 + (1 + (1 + sizeOf k + sizeOf v) + sizeOf kvs) := by simp
                omega)).2.2 k v kvs
            (by
              have h1 : sizeOf (JsonValue.obj ((k, v) :: kvs)) =
                  1 + (1 + (1 + sizeOf k + sizeOf v) + sizeOf kvs) := by simp
              omega)
            f1 rest
            (by rw [jsize_obj] at hf; omega)
            hrest
          split
          · next r heq =>
            rw [htail] at heq
            injection heq with heq1 heq2
            exact absurd heq1 (by decide)
          · next =>
            rw [hmem]
    · -- elements
      intro x xs hsz f rest hf hrest
      have hx := jsize_pos x
      have hxs := jsizeElems_pos xs
      obtain ⟨f1, rfl⟩ : ∃ f1, f = f1 + 1 :=
        ⟨f - 1, by rw [jsizeElems_cons] at hf; omega⟩
      rw [parseElems.eq_def]
      dsimp only
      have hszx : sizeOf x ≤ N - 1 := by
        have h2 : 1 ≤ sizeOf xs := by
          cases xs <;> simp <;> omega
        omega
      have hNpos : 1 ≤ N := by
        have h2 : 1 ≤ sizeOf xs := by
          cases xs <;> simp <;> omega
        have h3 : 1 ≤ sizeOf x := by cases x <;> simp <;> omega
        omega
      cases xs with
      | nil =>
        rw [dumpsElems_single, List.append_assoc, List.singleton_append]
        rw [(ih (N - 1) (by omega)).1 x (by omega) f1 (']' :: rest)
            (by rw [jsizeElems_cons, jsizeElems_nil] at hf; omega)
            (by intro d cs2 h; cases h; decide)]
        dsimp only
        rw [skipWs_cons_of _ _ (by decide)]
        rfl
      | cons y ys =>
        rw [dumpsElems_cons, List.append_assoc]
        simp only [List.cons_append]
        rw [(ih (N - 1) (by omega)).1 x (by omega) f1
            (',' :: ' ' :: (dumpsElems (y :: ys) ++ rest))
            (by
              rw [jsizeElems_cons] at hf
              have := jsizeElems_pos (y :: ys)
              omega)
            (by intro d cs2 h; cases h; decide)]
        dsimp only
        rw [skipWs_cons_of _ _ (by decide)]
        split
        · next r2 heq =>
          injection heq with heq1 heq2
          subst heq2
          obtain ⟨g, rfl⟩ : ∃ g, f1 = g + 2 := by
            refine ⟨f1 - 2, ?_⟩
            rw [jsizeElems_cons, jsizeElems_cons] at hf
            have := jsize_pos y
            have := jsizeElems_pos ys
            omega
          rw [pe_ws g]
          rw [(ih (N - 1) (by omega)).2.1 y ys
              (by
                have h2 : sizeOf (y :: ys) = 1 + sizeOf y + sizeOf ys := by simp
                have h3 : 1 ≤ sizeOf x := by cases x <;> simp <;> omega
                omega)
              (g + 2) rest
              (by rw [jsizeElems_cons] at hf; omega)
              hrest]
        · next r2 heq =>
          injection heq with heq1
          exact absurd heq1 (by decide)
        · next hne1 hne2 =>
          exact absurd rfl (hne1 (' ' :: (dumpsElems (y :: ys) ++ rest)))
    · -- members
      intro k v kvs hsz f rest hf hrest
      have hv := jsize_pos v
      have hkvs := jsizeMembers_pos kvs
      obtain ⟨f1, rfl⟩ : ∃ f1, f = f1 + 1 :=
        ⟨f - 1, by rw [jsizeMembers_cons] at hf; omega⟩
      rw [parseMembers.eq_def]
      dsimp only
      have hszkvs : 1 ≤ sizeOf kvs := by cases kvs <;> simp <;> omega
      have hszv : 1 ≤ sizeOf v := by cases v <;> simp <;> omega
      cases kvs with
      | nil =>
        have hsplit : dumpsMembers [(k, v)] ++ rest =
            '"' :: (escapeStr k.data ++
              ('"' :: ':' :: ' ' :: (dumpsVal v ++ '\x7d' :: rest))) := by
          rw [dumpsMembers_single, dumpsStr]; simp
        rw [hsplit, skipWs_cons_of _ _ (by decide)]
        split
        · next cs1 heq =>
          injection heq with heq1 heq2
          subst heq2
          rw [parseStringAux_round]
          dsimp only
          rw [skipWs_cons_of _ _ (by decide)]
          split
          · next r2 heqc =>
            injection heqc with heqc1 heqc2
            subst heqc2
            obtain ⟨g, rfl⟩ : ∃ g, f1 = g + 1 :=
              ⟨f1 - 1, by rw [jsizeMembers_cons, jsizeMembers_nil] at hf; omega⟩
            rw [pv_ws g]
            rw [(ih (N - 1) (by omega)).1 v (by omega) (g + 1) ('\x7d' :: rest)
                (by rw [jsizeMembers_cons, jsizeMembers_nil] at hf; omega)
                (by intro d cs2 h; cases h; decide)]
            dsimp only
            rw [skipWs_cons_of _ _ (by decide)]
            split
            · next r4 heqd =>
              injection heqd with heqd1
              exact absurd heqd1 (by decide)
            · next r4 heqd =>
              injection heqd with heqd1 heqd2
              subst heqd2
              rfl
            · next hne1 hne2 =>
              exact absurd rfl (hne2 rest)
          · next hne1 =>
            exact absurd rfl (hne1 (' ' :: (dumpsVal v ++ '\x7d' :: rest)))
        · next hne1 =>
          exact absurd rfl
            (hne1 (escapeStr k.data ++
              ('"' :: ':' :: ' ' :: (dumpsVal v ++ '\x7d' :: rest))))
      | cons m kvs2 =>
        have hsplit : dumpsMembers ((k, v) :: m :: kvs2) ++ rest =
            '"' :: (escapeStr k.data ++
              ('"' :: ':' :: ' ' ::
                (dumpsVal v ++ ',' :: ' ' :: (dumpsMembers (m :: kvs2) ++ rest)))) := by
          rw [dumpsMembers_cons, dumpsStr]; simp
        rw [hsplit, skipWs_cons_of _ _ (by decide)]
        split
        · next cs1 heq =>
          injection heq with heq1 heq2
          subst heq2
          rw [parseStringAux_round]
          dsimp only
          rw [skipWs_cons_of _ _ (by decide)]
          split
          · next r2 heqc =>
            injection heqc with heqc1 heqc2
            subst heqc2
            obtain ⟨g, rfl⟩ : ∃ g, f1 = g + 1 :=
              ⟨f1 - 1, by rw [jsizeMembers_cons] at hf; omega⟩
            rw [pv_ws g]
            rw [(ih (N - 1) (by omega)).1 v (by omega) (g + 1)
                (',' :: ' ' :: (dumpsMembers (m :: kvs2) ++ rest))
                (by rw [jsizeMembers_cons] at hf; omega)
                (by intro d cs2 h; cases h; decide)]
            dsimp only
            rw [skipWs_cons_of _ _ (by decide)]
            split
            · next r4 heqd =>
              injection heqd with heqd1 heqd2
              subst heqd2
              rw [pm_ws g]
              obtain ⟨k2, v2⟩ := m
              rw [(ih (N - 1) (by omega)).2.2 k2 v2 kvs2
                  (by
                    have h2 : sizeOf ((k2, v2) :: kvs2) =
                        1 + (1 + sizeOf k2 + sizeOf v2) + sizeOf kvs2 := by simp
                    omega)
                  (g + 1) rest
                  (by
                    rw [jsizeMembers_cons] at hf
                    omega)
                  hrest]
              rfl
            · next r4 heqd =>
              injection heqd with heqd1
              exact absurd heqd1 (by decide)
            · next hne1 hne2 =>
              exact absurd rfl
                (hne1 (' ' :: (dumpsMembers (m :: kvs2) ++ rest)))
          · next hne1 =>
            exact absurd rfl
              (hne1 (' ' :: (dumpsVal v ++
                ',' :: ' ' :: (dumpsMembers (m :: kvs2) ++ rest))))
        · next hne1 =>
          exact absurd rfl
            (hne1 (escapeStr k.data ++
              ('"' :: ':' :: ' ' ::
                (dumpsVal v ++ ',' :: ' ' :: (dumpsMembers (m :: kvs2) ++ rest)))))

theorem jsize_le_length : ∀ N : Nat,
    (∀ v : JsonValue, sizeOf v ≤ N → jsize v ≤ (dumpsVal v).length) ∧
    (∀ xs : List JsonValue, sizeOf xs ≤ N →
      jsizeElems xs ≤ (dumpsElems xs).length) ∧
    (∀ kvs : List (String × JsonValue), sizeOf kvs ≤ N →
      jsizeMembers kvs ≤ (dumpsMembers kvs).length) := by
  intro N
  induction N using Nat.strong_induction_on with
  | _ N ih =>
    refine ⟨?_, ?_, ?_⟩
    · intro v hsz
      cases v with
      | null => rw [jsize_null, dumpsVal_null]; simp
      | bool b =>
        cases b with
        | true => rw [jsize_bool, dumpsVal_true]; simp
        | false => rw [jsize_bool, dumpsVal_false]; simp
      | num n =>
        rw [jsize_num, dumpsVal_num, dumpsInt]
        by_cases hn : n < 0
        · rw [if_pos hn]; simp
        · rw [if_neg hn]
          obtain ⟨_, hne⟩ := natToChars_digits n.toNat
          obtain ⟨d, ds2, hcons⟩ := List.exists_cons_of_ne_nil hne
          rw [hcons]; simp
      | str s => rw [jsize_str, dumpsVal_str, dumpsStr]; simp
      | arr xs =>
        rw [jsize_arr, dumpsVal_arr]
        have h1 : sizeOf (JsonValue.arr xs) = 1 + sizeOf xs := by simp
        have := (ih (N - 1) (by omega)).2.1 xs (by omega)
        simp only [List.length_cons]
        omega
      | obj kvs =>
        rw [jsize_obj, dumpsVal_obj]
        have h1 : sizeOf (JsonValue.obj kvs) = 1 + sizeOf kvs := by simp
        have := (ih (N - 1) (by omega)).2.2 kvs (by omega)
        simp only [List.length_cons]
        omega
    · intro xs hsz
      cases xs with
      | nil => rw [jsizeElems_nil, dumpsElems_nil]; simp
      | cons x xs =>
        have h1 : sizeOf (x :: xs) = 1 + sizeOf x + sizeOf xs := by simp
        have hx := (ih (N - 1) (by omega)).1 x (by omega)
        cases xs with
        | nil =>
          rw [jsizeElems_cons, jsizeElems_nil, dumpsElems_single]
          simp only [List.length_append, List.length_singleton]
          omega
        | cons y ys =>
          have hys := (ih (N - 1) (by omega)).2.1 (y :: ys) (by omega)
          rw [jsizeElems_cons, dumpsElems_cons]
          simp only [List.length_append, List.length_cons]
          omega
    · intro kvs hsz
      cases kvs with
      | nil => rw [jsizeMembers_nil, dumpsMembers_nil]; simp
      | cons kv kvs =>
        obtain ⟨k, v⟩ := kv
        have h1 : sizeOf ((k, v) :: kvs) =
            1 + (1 + sizeOf k + sizeOf v) + sizeOf kvs := by simp
        have hv := (ih (N - 1) (by omega)).1 v (by omega)
        cases kvs with
        | nil =>
          rw [jsizeMembers_cons, jsizeMembers_nil, dumpsMembers_single, dumpsStr]
          simp only [List.length_append, List.length_cons, List.length_singleton]
          omega
        | cons m kvs2 =>
          have hm2 := (ih (N - 1) (by omega)).2.2 (m :: kvs2) (by omega)
          rw [jsizeMembers_cons, dumpsMembers_cons, dumpsStr]
          simp only [List.length_append, List.length_cons]
          omega

theorem json_loads_dumps (v : JsonValue) : json_loads (json_dumps v) = some v := by
  have hb := (jsize_le_length (sizeOf v)).1 v (le_refl _)
  have hm := (parse_dumps_main (sizeOf v)).1 v (le_refl _)
      (2 * (dumpsVal v).length + 2) [] (by omega) (fun d cs2 h => by cases h)
  rw [List.append_nil] at hm
  show (match parseValue (2 * (dumpsVal v).length + 2) (dumpsVal v) with
    | some (w, r) => if skipWs r = [] then some w else none
    | none => none) = some v
  rw [hm]
  rfl

theorem utf8decode_encode (s : String) : utf8decode (utf8encode s) = some s := by
  have hall : (utf8encode s).all isValidCp = true := by
    rw [List.all_eq_true]
    intro b hb
    obtain ⟨c, hc, rfl⟩ := List.mem_map.mp hb
    have hv : c.toNat < 55296 ∨ (57343 < c.toNat ∧ c.toNat < 1114112) := c.valid
    simp only [isValidCp, Bool.or_eq_true, Bool.and_eq_true, decide_eq_true_eq]
    exact hv
  rw [utf8decode, if_pos hall]
  rw [utf8encode, List.map_map]
  have hcomp : Char.ofNat ∘ Char.toNat = id := funext Char.ofNat_toNat
  rw [hcomp, List.map_id]


theorem c9_json_roundtrip (v : JsonValue) (mode : String) (ws : WS)
    (hm : mode = "text" ∨ mode = "binary")
    (ha : ws.application_state = .CONNECTED)
    (hc : ws.client_state = .CONNECTED) :
    ws.send_json v mode =
      (.ok (), { ws with sent := ws.sent ++ [jsonMsg v mode] }) ∧
    (jsonMsg v mode).type = .send ∧
    (WS.receive_json
        { ws with
          sent := ws.sent ++ [jsonMsg v mode],
          inbox := echo (jsonMsg v mode) :: ws.inbox }
        mode).1 = .ok v := by
  rcases ws with ⟨cs, as, inbox, sent, rc⟩
  simp only at ha hc
  subst ha; subst hc
  rcases hm with rfl | rfl
  · refine ⟨?_, rfl, ?_⟩
    · simp [WS.send_json, WS.send, jsonMsg]
    · simp [WS.receive_json, WS.receive, raise_on_disconnect, echo, jsonMsg,
            json_loads_dumps]
  · refine ⟨?_, rfl, ?_⟩
    · simp [WS.send_json, WS.send, jsonMsg]
    · simp [WS.receive_json, WS.receive, raise_on_disconnect, echo, jsonMsg,
            utf8decode_encode, json_loads_dumps]

theorem c9_witness :
    (WS.mk .CONNECTED .CONNECTED [] [] 0).send_json (.obj [("a", .num 1)]) "text" =
      (.ok (), WS.mk .CONNECTED .CONNECTED []
        [jsonMsg (.obj [("a", .num 1)]) "text"] 0) ∧
    (jsonMsg (.obj [("a", .num 1)]) "text").type = .send ∧
    (WS.receive_json
        (WS.mk .CONNECTED .CONNECTED
          [echo (jsonMsg (.obj [("a", .num 1)]) "text")]
          [jsonMsg (.obj [("a", .num 1)]) "text"] 0)
        "text").1 = .ok (.obj [("a", .num 1)]) := by
  simpa using c9_json_roundtrip (.obj [("a", .num 1)]) "text"
    (WS.mk .CONNECTED .CONNECTED [] [] 0) (Or.inl rfl) rfl rfl

end Starlette
